import Mathlib

/-!
# golang-dojo: the platform report program

Shallow embedding of `main.go`:

    func main() {
        fmt.Printf("OS: %s\n", runtime.GOOS)
        fmt.Printf("Arch: %s\n", runtime.GOARCH)
    }

The program is two calls of `fmt.Printf` on the constants of package `runtime`.
The embedding gives the process an explicit world (arguments, environment
variables, files, the two standard streams), interprets the format strings with a
model of the `%s` fragment of package `fmt`, and threads the world through the two
calls.  Go strings are modelled by Lean strings.

Two levels are kept apart.  `World` and `main` describe the program on descriptors
whose `Write` returns to its caller, with or without an error.  `Process` and
`Process.main` add the one case in which `Write` on standard output does not return:
a pipe whose reading end is closed, where package `os` raises `SIGPIPE` and the
process is killed.
-/

namespace GolangDojo

/-- Constants of package `runtime` the program reads: `runtime.GOOS` and
`runtime.GOARCH`. -/
structure Runtime where
  GOOS : String
  GOARCH : String
  deriving DecidableEq, Repr

/-- A descriptor that stops taking bytes: it takes `room` bytes in all, counted from the
first byte recorded for the file, and answers a `Write` that goes beyond them with the
error `err` (a closed descriptor or a full device has no room left). -/
structure Fault where
  room : Nat
  err : String
  deriving DecidableEq, Repr

/-- An open file of the process (`os.File`), as far as writing goes.
`written` holds every byte the program has passed to `Write` on the file, in call
order, whether the descriptor took it or not.  `fault` describes a descriptor that
stops taking bytes (`none` for a healthy descriptor). -/
structure File where
  written : String
  fault : Option Fault
  deriving DecidableEq, Repr

/-- The world a process runs in: `os.Args`, the environment variables, the
file system (path and content), and the streams `os.Stdout` and `os.Stderr`. -/
structure World where
  args : List String
  environ : List (String × String)
  files : List (String × String)
  stdout : File
  stderr : File
  deriving DecidableEq, Repr

/-- The method `Write` of `os.File` on a descriptor that returns: the bytes are handed
to the descriptor; a healthy descriptor takes them all and reports their number and no
error; a faulty one takes what its room still allows, reports that number, and
reports its error when it is less than what was handed over. -/
def File.Write (f : File) (b : String) : File × Nat × Option String :=
  match f.fault with
  | none => ({ f with written := f.written ++ b }, b.utf8ByteSize, none)
  | some q =>
    let n := min b.utf8ByteSize (q.room - f.written.utf8ByteSize)
    ({ f with written := f.written ++ b }, n, if n < b.utf8ByteSize then some q.err else none)

namespace fmt

/-- The note `fmt` appends when operands are left over after the format is
consumed: `%!(EXTRA string=a, string=b)`; nothing when none is left. -/
def extraOperands : List String → List Char
  | [] => []
  | a :: rest =>
    "%!(EXTRA ".data ++ "string=".data ++ a.data
      ++ (rest.map fun x => ", string=".data ++ x.data).flatten ++ [')']

/-- The formatting loop of `fmt` (`doFormat`) on string operands, for the fragment
without flags, width or precision and with the verbs `%s`, `%v` and `%%`:
ordinary characters are copied, `%s` and `%v` are replaced by the next operand
(by `%!s(MISSING)` when the operands have run out), `%%` prints a percent sign, a
lone `%` at the end prints `%!(NOVERB)`, left-over operands are reported at the end.
Formats outside the fragment give `none`. -/
def doFormat : List Char → List String → Option (List Char)
  | [], a => some (extraOperands a)
  | c :: rest, a =>
    if c ≠ '%' then (doFormat rest a).map (c :: ·)
    else
      match rest, a with
      | [], a => some ("%!(NOVERB)".data ++ extraOperands a)
      | v :: rest', a =>
        if v = '%' then (doFormat rest' a).map ('%' :: ·)
        else if v = 's' ∨ v = 'v' then
          match a with
          | [] => (doFormat rest' []).map (['%', '!', v] ++ "(MISSING)".data ++ ·)
          | x :: a' => (doFormat rest' a').map (x.data ++ ·)
        else none

/-- The function `fmt.Sprintf` on string operands. -/
def Sprintf (format : String) (a : List String) : Option String :=
  (doFormat format.data a).map String.mk

/-- The function `fmt.Fprintf`: formats, writes the result to `f` in one `Write`
and returns what `Write` returned. -/
def Fprintf (f : File) (format : String) (a : List String) :
    Option (File × Nat × Option String) :=
  (Sprintf format a).map fun s => f.Write s

/-- The function `fmt.Printf`: `Fprintf` on `os.Stdout`. -/
def Printf (w : World) (format : String) (a : List String) :
    Option (World × Nat × Option String) :=
  (Fprintf w.stdout format a).map fun r => ({ w with stdout := r.1 }, r.2)

end fmt

/-- The function `main` of `main.go`: two `fmt.Printf` calls whose results (byte
count and error) are discarded. -/
def main (rt : Runtime) (w : World) : Option World := do
  let (w, _) ← fmt.Printf w "OS: %s\n" [rt.GOOS]
  let (w, _) ← fmt.Printf w "Arch: %s\n" [rt.GOARCH]
  pure w

/-- How a process ends: it exits with a status, or a signal kills it. -/
inductive Ending where
  | exited (status : Nat)
  | killed (signal : String)
  deriving DecidableEq, Repr

/-- A running process: its world, and whether standard output is a pipe whose reading
end is closed. -/
structure Process where
  world : World
  brokenPipe : Bool
  deriving DecidableEq, Repr

/-- What a call does to the process: it returns a value, or the process is killed by a
signal and leaves the world as it is at that moment. -/
inductive Step (α : Type) where
  | returned (a : α)
  | killed (signal : String) (world : World)

/-- The method `Write` of `os.Stdout` in a process.  The bytes are handed to the
descriptor.  When standard output is a broken pipe and there is a byte to write, the
system call answers `EPIPE`, and `os` raises `SIGPIPE` for descriptor 1
(`epipecheck`): the process is killed and `Write` does not return.  Otherwise `Write`
returns what `File.Write` returns. -/
def Process.Write (p : Process) (b : String) : Step (Process × Nat × Option String) :=
  let r := p.world.stdout.Write b
  if p.brokenPipe = true ∧ b ≠ "" then
    Step.killed "SIGPIPE" { p.world with stdout := r.1 }
  else
    Step.returned ({ p with world := { p.world with stdout := r.1 } }, r.2)

/-- The function `fmt.Printf` in a process: formats and writes the result to
`os.Stdout` in one `Write`. -/
def Process.Printf (p : Process) (format : String) (a : List String) :
    Option (Step (Process × Nat × Option String)) :=
  (fmt.Sprintf format a).map fun s => p.Write s

/-- The function `main` of `main.go` in a process: the two `fmt.Printf` calls, results
discarded; a call that kills the process ends `main` there. -/
def Process.main (rt : Runtime) (p : Process) : Option (Step Process) :=
  match Process.Printf p "OS: %s\n" [rt.GOOS] with
  | none => none
  | some (Step.killed sig w) => some (Step.killed sig w)
  | some (Step.returned (p1, _)) =>
    match Process.Printf p1 "Arch: %s\n" [rt.GOARCH] with
    | none => none
    | some (Step.killed sig w) => some (Step.killed sig w)
    | some (Step.returned (p2, _)) => some (Step.returned p2)

/-- Running the program as a process: the Go runtime calls `main.main` and, when it
returns, exits with status 0; a process killed by a signal ends with that signal.
The result is the final world and how the process ended. -/
def Process.run (rt : Runtime) (p : Process) : Option (World × Ending) :=
  (Process.main rt p).map fun
    | Step.returned p' => (p'.world, Ending.exited 0)
    | Step.killed sig w => (w, Ending.killed sig)

/-- Running the program as a process whose standard output is not a broken pipe: the
final world and the exit status. -/
def exec (rt : Runtime) (w : World) : Option (World × Nat) :=
  (Process.run rt ⟨w, false⟩).bind fun r =>
    match r.2 with
    | Ending.exited status => some (r.1, status)
    | Ending.killed _ => none

/-- The bytes a run of `main` from `w` adds to standard output: what standard output
holds afterwards, without what it held before. -/
def stdoutOf (rt : Runtime) (w : World) : Option String :=
  (main rt w).map fun w' => String.mk (w'.stdout.written.data.drop w.stdout.written.length)

/-- The text of the two lines for the given identifiers. -/
def report (os arch : String) : String :=
  "OS: " ++ os ++ "\n" ++ "Arch: " ++ arch ++ "\n"

/-! ## The formatter on the two formats of `main` -/

theorem doFormat_os (os : String) :
    fmt.doFormat "OS: %s\n".data [os] = some ("OS: ".data ++ os.data ++ "\n".data) := rfl

theorem doFormat_arch (arch : String) :
    fmt.doFormat "Arch: %s\n".data [arch] = some ("Arch: ".data ++ arch.data ++ "\n".data) :=
  rfl

theorem Sprintf_os (os : String) :
    fmt.Sprintf "OS: %s\n" [os] = some ("OS: " ++ os ++ "\n") := by
  simp only [fmt.Sprintf, doFormat_os, Option.map_some']
  congr 1

theorem Sprintf_arch (arch : String) :
    fmt.Sprintf "Arch: %s\n" [arch] = some ("Arch: " ++ arch ++ "\n") := by
  simp only [fmt.Sprintf, doFormat_arch, Option.map_some']
  congr 1

/-- Whatever the descriptor answers, `Write` leaves the file with the bytes recorded and
the fault unchanged. -/
theorem Write_file (f : File) (b : String) :
    (f.Write b).1 = { f with written := f.written ++ b } := by
  unfold File.Write
  cases f.fault <;> rfl

theorem utf8ByteSize_append (s t : String) :
    (s ++ t).utf8ByteSize = s.utf8ByteSize + t.utf8ByteSize := by
  show String.utf8ByteSize ⟨s.data ++ t.data⟩ = _
  rw [String.utf8ByteSize_mk, String.utf8Len_append]
  rfl

/-- The world after `main`: the world before, with the two lines appended to what
standard output held. -/
theorem main_spec (rt : Runtime) (w : World) :
    main rt w = some { w with stdout :=
      { w.stdout with written := w.stdout.written ++ report rt.GOOS rt.GOARCH } } := by
  simp only [main, fmt.Printf, fmt.Fprintf, Sprintf_os, Sprintf_arch, Option.map_some',
    Option.bind_eq_bind, Option.some_bind, Write_file, Option.pure_def, report,
    String.append_assoc]

theorem stdoutOf_spec (rt : Runtime) (w : World) :
    stdoutOf rt w = some (report rt.GOOS rt.GOARCH) := by
  simp only [stdoutOf, main_spec, Option.map_some', String.length, String.data_append,
    List.drop_left]

/-! ## The process -/

/-- In a process whose standard output is not a broken pipe, `Process.main` returns and
leaves the world `main` leaves. -/
theorem Process_main_spec (rt : Runtime) (p : Process) (hp : p.brokenPipe = false) :
    Process.main rt p = some (Step.returned { p with world :=
      { p.world with stdout :=
        { p.world.stdout with
          written := p.world.stdout.written ++ report rt.GOOS rt.GOARCH } } }) := by
  simp only [Process.main, Process.Printf, Process.Write, Sprintf_os, Sprintf_arch,
    Option.map_some', hp, Bool.false_eq_true, false_and, if_false, Write_file, report,
    String.append_assoc]

theorem Process_run_spec (rt : Runtime) (p : Process) (hp : p.brokenPipe = false) :
    Process.run rt p = (main rt p.world).map fun w' => (w', Ending.exited 0) := by
  simp only [Process.run, Process_main_spec rt p hp, main_spec, Option.map_some']

theorem exec_spec (rt : Runtime) (w : World) :
    exec rt w = (main rt w).map fun w' => (w', 0) := by
  simp only [exec, Process_run_spec rt ⟨w, false⟩ rfl, main_spec, Option.map_some',
    Option.some_bind]

/-! ## Lines of the report -/

/-- The characters of the report: the first line, a newline, the second line, a
newline. -/
theorem report_data (os arch : String) :
    (report os arch).data
      = "OS: ".data ++ (os.data ++ '\n' :: ("Arch: ".data ++ (arch.data ++ ['\n']))) := by
  simp only [report, String.data_append, List.append_assoc]
  rfl

/-- A text is cut at its first newline in one way only. -/
theorem split_newline_unique :
    ∀ (a c b d : List Char), '\n' ∉ a → '\n' ∉ c → a ++ '\n' :: b = c ++ '\n' :: d →
      a = c ∧ b = d
  | [], [], b, d, _, _, h => by simpa using h
  | [], y :: c, b, d, _, hc, h => by
    simp only [List.nil_append, List.cons_append, List.cons.injEq] at h
    exact absurd (by rw [h.1]; exact List.mem_cons_self _ _) hc
  | x :: a, [], b, d, ha, _, h => by
    simp only [List.nil_append, List.cons_append, List.cons.injEq] at h
    exact absurd (by rw [h.1]; exact List.mem_cons_self _ _) ha
  | x :: a, y :: c, b, d, ha, hc, h => by
    simp only [List.cons_append, List.cons.injEq] at h
    have ha' : '\n' ∉ a := fun m => ha (List.mem_cons_of_mem _ m)
    have hc' : '\n' ∉ c := fun m => hc (List.mem_cons_of_mem _ m)
    obtain ⟨h1, h2⟩ := split_newline_unique a c b d ha' hc' h.2
    exact ⟨by rw [h.1, h1], h2⟩

/-- Two reports with newline-free operating-system identifiers are equal only for equal
identifiers. -/
theorem report_injective (o1 a1 o2 a2 : String) (h1 : '\n' ∉ o1.data) (h2 : '\n' ∉ o2.data)
    (h : report o1 a1 = report o2 a2) : o1 = o2 ∧ a1 = a2 := by
  have hd := congrArg String.data h
  rw [report_data, report_data] at hd
  obtain ⟨ho, hr⟩ := split_newline_unique _ _ _ _ h1 h2 (List.append_cancel_left hd)
  have ha := List.append_cancel_right (List.append_cancel_left hr)
  exact ⟨String.ext ho, String.ext ha⟩

/-- A newline-free identifier after a newline-free label is newline-free. -/
theorem newline_free_line (label v : String) (hl : '\n' ∉ label.data) (hv : '\n' ∉ v.data) :
    '\n' ∉ (label ++ v).data := by
  simp only [String.data_append, List.mem_append, not_or]
  exact ⟨hl, hv⟩

/-- The report of newline-free identifiers holds two newlines and ends in one. -/
theorem report_newlines (os arch : String) (hos : '\n' ∉ os.data)
    (harch : '\n' ∉ arch.data) :
    (report os arch).data.count '\n' = 2 ∧ (report os arch).data.getLast? = some '\n' := by
  rw [report_data]
  refine ⟨?_, ?_⟩
  · have c1 : os.data.count '\n' = 0 := List.count_eq_zero_of_not_mem hos
    have c2 : arch.data.count '\n' = 0 := List.count_eq_zero_of_not_mem harch
    have c3 : "OS: ".data.count '\n' = 0 := by decide
    have c4 : "Arch: ".data.count '\n' = 0 := by decide
    simp only [List.count_append, List.count_cons, c1, c2, c3, c4, List.count_nil]
    simp
  · have e : "OS: ".data ++ (os.data ++ '\n' :: ("Arch: ".data ++ (arch.data ++ ['\n'])))
        = ("OS: ".data ++ (os.data ++ '\n' :: ("Arch: ".data ++ arch.data))) ++ ['\n'] := by
      simp only [List.append_assoc, List.cons_append]
    rw [e, List.getLast?_concat]

/-! ## The contract of `main` -/

/-- C1: for every operating-system identifier and architecture identifier, the bytes
`main` writes to standard output are exactly `"OS: " ++ os ++ "\n" ++ "Arch: " ++ arch ++ "\n"`,
appended right after what standard output held, the OS line first and the Arch line
second; `linux`/`amd64` gives `"OS: linux\nArch: amd64\n"` and `darwin`/`arm64` gives
`"OS: darwin\nArch: arm64\n"`. -/
theorem main_stdout_exact (rt : Runtime) (w : World) :
    stdoutOf rt w = some ("OS: " ++ rt.GOOS ++ "\n" ++ "Arch: " ++ rt.GOARCH ++ "\n")
    ∧ (main rt w).map (fun w' => w'.stdout.written)
        = some (w.stdout.written ++ ("OS: " ++ rt.GOOS ++ "\n" ++ "Arch: " ++ rt.GOARCH ++ "\n"))
    ∧ stdoutOf ⟨"linux", "amd64"⟩ w = some "OS: linux\nArch: amd64\n"
    ∧ stdoutOf ⟨"darwin", "arm64"⟩ w = some "OS: darwin\nArch: arm64\n" := by
  refine ⟨stdoutOf_spec rt w, ?_, ?_, ?_⟩
  · rw [main_spec]; rfl
  · rw [stdoutOf_spec]; rfl
  · rw [stdoutOf_spec]; rfl

/-- C2: when neither identifier contains a newline, the bytes `main` writes to standard
output hold exactly two newline characters and the last of them is a newline: two
lines, each terminated by a newline. -/
theorem main_stdout_two_lines (rt : Runtime) (w : World)
    (hos : '\n' ∉ rt.GOOS.data) (harch : '\n' ∉ rt.GOARCH.data) :
    ∃ out : String, stdoutOf rt w = some out
      ∧ out.data.count '\n' = 2 ∧ out.data.getLast? = some '\n' :=
  ⟨report rt.GOOS rt.GOARCH, stdoutOf_spec rt w, report_newlines _ _ hos harch⟩

theorem main_stdout_two_lines_witness :
    '\n' ∉ "linux".data ∧ '\n' ∉ "amd64".data
    ∧ ∃ out : String,
        stdoutOf ⟨"linux", "amd64"⟩ ⟨[], [], [], ⟨"", none⟩, ⟨"", none⟩⟩ = some out
        ∧ out.data.count '\n' = 2 ∧ out.data.getLast? = some '\n' :=
  ⟨by decide, by decide,
    main_stdout_two_lines ⟨"linux", "amd64"⟩ ⟨[], [], [], ⟨"", none⟩, ⟨"", none⟩⟩
      (by decide) (by decide)⟩

/-- C3: when both identifiers are non-empty and newline-free, the bytes `main` writes to
standard output are a first line, a newline, a second line, a newline, where the first
line is `OS: ` followed by a non-empty string and the second is `Arch: ` followed by a
non-empty string; and these are the only two newline-free lines the output divides
into. -/
theorem main_stdout_line_shapes (rt : Runtime) (w : World)
    (hos : rt.GOOS ≠ "") (harch : rt.GOARCH ≠ "")
    (hosn : '\n' ∉ rt.GOOS.data) (harchn : '\n' ∉ rt.GOARCH.data) :
    (∃ l1 l2 : String, stdoutOf rt w = some (l1 ++ "\n" ++ l2 ++ "\n")
        ∧ '\n' ∉ l1.data ∧ '\n' ∉ l2.data
        ∧ (∃ v : String, v ≠ "" ∧ l1 = "OS: " ++ v)
        ∧ (∃ v : String, v ≠ "" ∧ l2 = "Arch: " ++ v))
    ∧ (∀ l1 l2 : String, '\n' ∉ l1.data → '\n' ∉ l2.data →
        stdoutOf rt w = some (l1 ++ "\n" ++ l2 ++ "\n") →
        l1 = "OS: " ++ rt.GOOS ∧ l2 = "Arch: " ++ rt.GOARCH) := by
  have n1 : '\n' ∉ ("OS: " ++ rt.GOOS).data := newline_free_line _ _ (by decide) hosn
  have n2 : '\n' ∉ ("Arch: " ++ rt.GOARCH).data := newline_free_line _ _ (by decide) harchn
  refine ⟨⟨"OS: " ++ rt.GOOS, "Arch: " ++ rt.GOARCH, ?_, n1, n2,
    ⟨rt.GOOS, hos, rfl⟩, ⟨rt.GOARCH, harch, rfl⟩⟩, ?_⟩
  · rw [stdoutOf_spec]
    simp only [report, String.append_assoc]
  · intro l1 l2 h1 h2 h
    rw [stdoutOf_spec, Option.some.injEq] at h
    have hd := congrArg String.data h
    simp only [report, String.data_append, List.append_assoc] at hd
    have e : "\n".data = ['\n'] := rfl
    simp only [e, List.singleton_append] at hd
    simp only [String.data_append] at n1 n2
    rw [← List.append_assoc] at hd
    obtain ⟨a, b⟩ := split_newline_unique _ _ _ _ n1 h1 hd
    rw [← List.append_assoc] at b
    have b' := List.append_cancel_right b
    exact ⟨String.ext (by rw [String.data_append]; exact a.symm),
      String.ext (by rw [String.data_append]; exact b'.symm)⟩

theorem main_stdout_line_shapes_witness :
    ("linux" ≠ "" ∧ "amd64" ≠ "" ∧ '\n' ∉ "linux".data ∧ '\n' ∉ "amd64".data)
    ∧ ∃ l1 l2 : String,
        stdoutOf ⟨"linux", "amd64"⟩ ⟨["report"], [], [], ⟨"", none⟩, ⟨"", none⟩⟩
          = some (l1 ++ "\n" ++ l2 ++ "\n")
        ∧ '\n' ∉ l1.data ∧ '\n' ∉ l2.data
        ∧ (∃ v : String, v ≠ "" ∧ l1 = "OS: " ++ v)
        ∧ (∃ v : String, v ≠ "" ∧ l2 = "Arch: " ++ v) :=
  ⟨⟨by decide, by decide, by decide, by decide⟩,
    (main_stdout_line_shapes ⟨"linux", "amd64"⟩ ⟨["report"], [], [], ⟨"", none⟩, ⟨"", none⟩⟩
      (by decide) (by decide) (by decide) (by decide)).1⟩

/-- C4: determinism. A run of `main` produces output, the output is the same from any
two worlds (it depends on the two identifiers alone), and a second run, started in the
world the first run left, writes the same bytes as the first. -/
theorem main_deterministic (rt : Runtime) (w w2 : World) :
    (stdoutOf rt w).isSome
    ∧ stdoutOf rt w = stdoutOf rt w2
    ∧ (main rt w).bind (stdoutOf rt) = stdoutOf rt w := by
  refine ⟨by rw [stdoutOf_spec]; rfl, by rw [stdoutOf_spec, stdoutOf_spec], ?_⟩
  rw [main_spec, Option.some_bind, stdoutOf_spec, stdoutOf_spec]

/-- C5: command-line arguments are not read. For any two argument lists (such as none,
`--help`, and `foo bar`) and the same environment otherwise, `main` produces output and
an exit status, and both are the same. -/
theorem main_ignores_args (rt : Runtime) (w : World) (a1 a2 : List String) :
    (exec rt { w with args := a1 }).isSome
    ∧ stdoutOf rt { w with args := a1 } = stdoutOf rt { w with args := a2 }
    ∧ (exec rt { w with args := a1 }).map Prod.snd
        = (exec rt { w with args := a2 }).map Prod.snd
    ∧ stdoutOf rt { w with args := [] } = stdoutOf rt { w with args := ["--help"] }
    ∧ stdoutOf rt { w with args := [] } = stdoutOf rt { w with args := ["foo", "bar"] }
    ∧ (exec rt { w with args := [] }).map Prod.snd
        = (exec rt { w with args := ["--help"] }).map Prod.snd
    ∧ (exec rt { w with args := [] }).map Prod.snd
        = (exec rt { w with args := ["foo", "bar"] }).map Prod.snd := by
  simp only [exec_spec, main_spec, stdoutOf_spec, Option.map_some', Option.isSome_some,
    and_self]

/-- C6, refuted as stated: a process whose standard output is a broken pipe is killed by
`SIGPIPE` in the first `fmt.Printf` call, after handing over the first line, and does
not exit with status 0; so not every run exits with status 0. -/
theorem run_killed_on_broken_pipe :
    Process.run ⟨"linux", "amd64"⟩ ⟨⟨[], [], [], ⟨"", none⟩, ⟨"", none⟩⟩, true⟩
      = some (⟨[], [], [], ⟨"OS: linux\n", none⟩, ⟨"", none⟩⟩, Ending.killed "SIGPIPE")
    ∧ ¬ ∀ (rt : Runtime) (p : Process),
        (Process.run rt p).map Prod.snd = some (Ending.exited 0) := by
  have h : Process.run ⟨"linux", "amd64"⟩ ⟨⟨[], [], [], ⟨"", none⟩, ⟨"", none⟩⟩, true⟩
      = some (⟨[], [], [], ⟨"OS: linux\n", none⟩, ⟨"", none⟩⟩, Ending.killed "SIGPIPE") := by
    decide
  refine ⟨h, fun all => ?_⟩
  have h0 := all ⟨"linux", "amd64"⟩ ⟨⟨[], [], [], ⟨"", none⟩, ⟨"", none⟩⟩, true⟩
  rw [h] at h0
  exact absurd h0 (by decide)

/-- C6, amended: every run in which standard output is not a broken pipe exits with
status 0: `main` returns and the run ends with status 0 in the world `main` leaves.
That holds also when the writes fail with an error `Write` returns: on a descriptor
with no room left both `fmt.Printf` calls of `main` report zero bytes and the error,
and on any faulty descriptor the first call reports the bytes the room still allowed
and the error when they are fewer than the line; `main` discards the results and the
status is 0. -/
theorem run_exits_zero (rt : Runtime) (p : Process) (hp : p.brokenPipe = false) :
    (∃ w' : World, main rt p.world = some w'
      ∧ Process.run rt p = some (w', Ending.exited 0))
    ∧ (∀ q : Fault, p.world.stdout.fault = some q →
        q.room ≤ p.world.stdout.written.utf8ByteSize →
        ∃ p1 p2 : Process,
          Process.Printf p "OS: %s\n" [rt.GOOS] = some (Step.returned (p1, 0, some q.err))
          ∧ Process.Printf p1 "Arch: %s\n" [rt.GOARCH]
              = some (Step.returned (p2, 0, some q.err))
          ∧ Process.main rt p = some (Step.returned p2)
          ∧ Process.run rt p = some (p2.world, Ending.exited 0))
    ∧ (∀ q : Fault, p.world.stdout.fault = some q →
        ∃ p1 : Process,
          Process.Printf p "OS: %s\n" [rt.GOOS]
            = some (Step.returned (p1,
                min ("OS: " ++ rt.GOOS ++ "\n").utf8ByteSize
                  (q.room - p.world.stdout.written.utf8ByteSize),
                if min ("OS: " ++ rt.GOOS ++ "\n").utf8ByteSize
                    (q.room - p.world.stdout.written.utf8ByteSize)
                    < ("OS: " ++ rt.GOOS ++ "\n").utf8ByteSize
                then some q.err else none))
          ∧ (Process.run rt p).map Prod.snd = some (Ending.exited 0)) := by
  have hrun := Process_run_spec rt p hp
  rw [main_spec, Option.map_some'] at hrun
  have l1 : 0 < ("OS: " ++ rt.GOOS ++ "\n").utf8ByteSize := by
    rw [utf8ByteSize_append, utf8ByteSize_append]
    have : "\n".utf8ByteSize = 1 := by decide
    omega
  have l2 : 0 < ("Arch: " ++ rt.GOARCH ++ "\n").utf8ByteSize := by
    rw [utf8ByteSize_append, utf8ByteSize_append]
    have : "\n".utf8ByteSize = 1 := by decide
    omega
  refine ⟨⟨_, main_spec rt p.world, hrun⟩, fun q hq hroom => ?_, fun q hq => ?_⟩
  · have r1 : q.room - p.world.stdout.written.utf8ByteSize = 0 := by omega
    have r2 : q.room - (p.world.stdout.written ++ ("OS: " ++ rt.GOOS ++ "\n")).utf8ByteSize
        = 0 := by
      rw [utf8ByteSize_append]; omega
    refine ⟨⟨{ p.world with stdout :=
        ⟨p.world.stdout.written ++ ("OS: " ++ rt.GOOS ++ "\n"), p.world.stdout.fault⟩ },
        p.brokenPipe⟩,
      ⟨{ p.world with stdout :=
        ⟨p.world.stdout.written ++ report rt.GOOS rt.GOARCH, p.world.stdout.fault⟩ },
        p.brokenPipe⟩, ?_, ?_, ?_, ?_⟩
    · simp only [Process.Printf, Process.Write, File.Write, Sprintf_os, Option.map_some', hp,
        hq, Bool.false_eq_true, false_and, if_false, r1, Nat.min_zero, l1, if_true]
    · simp only [Process.Printf, Process.Write, File.Write, Sprintf_arch, Option.map_some', hp,
        hq, Bool.false_eq_true, false_and, if_false, r2, Nat.min_zero, l2, if_true]
      simp only [report, String.append_assoc]
    · rw [Process_main_spec rt p hp]
    · rw [hrun]
  · refine ⟨⟨{ p.world with stdout :=
        ⟨p.world.stdout.written ++ ("OS: " ++ rt.GOOS ++ "\n"), p.world.stdout.fault⟩ },
        p.brokenPipe⟩, ?_, by rw [hrun]; rfl⟩
    simp only [Process.Printf, Process.Write, File.Write, Sprintf_os, Option.map_some', hp,
      hq, Bool.false_eq_true, false_and, if_false]

theorem run_exits_zero_witness :
    (∃ w' : World,
      main ⟨"linux", "amd64"⟩ ⟨[], [], [], ⟨"", some ⟨0, "file already closed"⟩⟩, ⟨"", none⟩⟩
        = some w'
      ∧ Process.run ⟨"linux", "amd64"⟩
          ⟨⟨[], [], [], ⟨"", some ⟨0, "file already closed"⟩⟩, ⟨"", none⟩⟩, false⟩
        = some (w', Ending.exited 0))
    ∧ ∃ p1 p2 : Process,
        Process.Printf ⟨⟨[], [], [], ⟨"", some ⟨0, "file already closed"⟩⟩, ⟨"", none⟩⟩, false⟩
            "OS: %s\n" ["linux"]
          = some (Step.returned (p1, 0, some "file already closed"))
        ∧ Process.Printf p1 "Arch: %s\n" ["amd64"]
          = some (Step.returned (p2, 0, some "file already closed"))
        ∧ Process.main ⟨"linux", "amd64"⟩
            ⟨⟨[], [], [], ⟨"", some ⟨0, "file already closed"⟩⟩, ⟨"", none⟩⟩, false⟩
          = some (Step.returned p2)
        ∧ Process.run ⟨"linux", "amd64"⟩
            ⟨⟨[], [], [], ⟨"", some ⟨0, "file already closed"⟩⟩, ⟨"", none⟩⟩, false⟩
          = some (p2.world, Ending.exited 0) :=
  have h := run_exits_zero ⟨"linux", "amd64"⟩
    ⟨⟨[], [], [], ⟨"", some ⟨0, "file already closed"⟩⟩, ⟨"", none⟩⟩, false⟩ rfl
  ⟨h.1, h.2.1 ⟨0, "file already closed"⟩ rfl (Nat.zero_le _)⟩

/-- C7: the only effect of `main` is appending to standard output. After `main` the
arguments, the environment variables, the files and standard error are what they
were, standard output holds what it held followed by the two lines, and the bytes
written do not depend on the arguments, the environment variables, the files or
standard error. -/
theorem main_frame (rt : Runtime) (w : World) :
    (∃ w' : World, main rt w = some w'
      ∧ w'.args = w.args ∧ w'.environ = w.environ ∧ w'.files = w.files
      ∧ w'.stderr = w.stderr ∧ w'.stdout.fault = w.stdout.fault
      ∧ w'.stdout.written = w.stdout.written ++ report rt.GOOS rt.GOARCH)
    ∧ ∀ (args : List String) (environ files : List (String × String)) (stderr : File),
        stdoutOf rt { w with args := args, environ := environ, files := files, stderr := stderr }
          = stdoutOf rt w :=
  ⟨⟨_, main_spec rt w, rfl, rfl, rfl, rfl, rfl, rfl⟩,
    fun _ _ _ _ => by rw [stdoutOf_spec, stdoutOf_spec]⟩

/-- C8: the output determines the identifiers when the operating-system identifiers are
newline-free: equal outputs of `main` for two pairs of identifiers force equal pairs;
without that condition two different pairs can give the same output, as
`"x\nArch: y"`/`"z"` and `"x"`/`"y\nArch: z"` do. -/
theorem main_stdout_unambiguous :
    (∀ (rt1 rt2 : Runtime) (w1 w2 : World),
        '\n' ∉ rt1.GOOS.data → '\n' ∉ rt2.GOOS.data →
        stdoutOf rt1 w1 = stdoutOf rt2 w2 →
        rt1.GOOS = rt2.GOOS ∧ rt1.GOARCH = rt2.GOARCH)
    ∧ (∀ w : World,
        stdoutOf ⟨"x\nArch: y", "z"⟩ w = stdoutOf ⟨"x", "y\nArch: z"⟩ w
        ∧ (⟨"x\nArch: y", "z"⟩ : Runtime) ≠ ⟨"x", "y\nArch: z"⟩) := by
  refine ⟨fun rt1 rt2 w1 w2 h1 h2 h => ?_, fun w => ⟨?_, by decide⟩⟩
  · rw [stdoutOf_spec, stdoutOf_spec, Option.some.injEq] at h
    exact report_injective _ _ _ _ h1 h2 h
  · rw [stdoutOf_spec, stdoutOf_spec]; rfl

theorem main_stdout_unambiguous_witness :
    '\n' ∉ "linux".data
    ∧ stdoutOf ⟨"linux", "amd64"⟩ ⟨[], [], [], ⟨"", none⟩, ⟨"", none⟩⟩
        = stdoutOf ⟨"linux", "amd64"⟩ ⟨["a"], [], [], ⟨"earlier", none⟩, ⟨"", none⟩⟩
    ∧ "linux" = "linux" ∧ "amd64" = "amd64" :=
  ⟨by decide, by decide,
    main_stdout_unambiguous.1 ⟨"linux", "amd64"⟩ ⟨"linux", "amd64"⟩
      ⟨[], [], [], ⟨"", none⟩, ⟨"", none⟩⟩ ⟨["a"], [], [], ⟨"earlier", none⟩, ⟨"", none⟩⟩
      (by decide) (by decide) (by decide)⟩

end GolangDojo
